import Mathlib

/-!
Shallow embedding of `src/log_highlighter.py` (feed-checker).

The program reads a log file into a list of lines and runs one forward
pass `extract_and_highlight_issues`: a header line is reprinted wrapped in
cyan, an issue-row line is reprinted wrapped in red together with a window
of surrounding raw lines as plain context and an 80-dash separator, and
every other line is skipped.  The `__main__` block parses `sys.argv` and
calls the function.

Machine details modelled explicitly:
* `str.rstrip()` removes trailing whitespace characters (ASCII subset
  modelled; the rare non-ASCII Python whitespace is irrelevant here);
* `re.match` of the two anchored patterns is modelled as executable
  Boolean predicates on the character list (`\d`/`\s` restricted to
  ASCII, as every concrete input here is ASCII);
* Python ints are `Int`; `max(0, i - context_lines)` and
  `min(len(lines), i + context_lines + 1)` are computed in `Int` and the
  result converted back to a `Nat` index;
* the `while i < len(lines)` loop is a step function on an explicit loop
  state, iterated; every branch increments `i` by one.

Besides the string-level embedding (`processIdx`, `extract`) there is an
instrumented version (`annotIdx`, `annotate`) whose output items carry
the source index and kind of each emitted line; `extract_eq_render`
proves that rendering the instrumented output yields exactly the string
output, so theorems stated on the instrumented output are theorems about
the program.
-/

namespace LogHighlighter

/-- Characters removed by Python `str.rstrip()` (ASCII whitespace). -/
def isPySpace (c : Char) : Bool :=
  c == ' ' || c == '\t' || c == '\n' || c == '\x0b' || c == '\x0c' || c == '\r'

/-- Python `s.rstrip()`: drop trailing whitespace. -/
def rstrip (s : String) : String :=
  String.mk ((s.toList.reverse.dropWhile isPySpace).reverse)

/-- `stripLit lit cs` removes the literal prefix `lit` from `cs`,
returning the rest, or `none` when `cs` does not start with `lit`. -/
def stripLit : List Char → List Char → Option (List Char)
  | [], cs => some cs
  | _ :: _, [] => none
  | p :: ps, c :: cs => if c = p then stripLit ps cs else none

/-- `.*$` on the rest of the string: `.` never matches a newline and `$`
matches at the end or just before one final newline. -/
def dotStarDollar (cs : List Char) : Bool :=
  !cs.contains '\n' || (cs.getLast? == some '\n' && !(cs.dropLast.contains '\n'))

/-- `header_pattern = re.compile(r'^\* \*\*\[ISSUE\]\*\*.*$')` applied with
`re.match` (anchored at the start). -/
def isHeaderLine (s : String) : Bool :=
  match stripLit ("* **[ISSUE]**".toList) s.toList with
  | some rest => dotStarDollar rest
  | none => false

/-- After `"* Row "`: one or more digits, a colon, then `.*$`. -/
def rowTail (cs : List Char) : Bool :=
  !(cs.takeWhile Char.isDigit).isEmpty &&
    match cs.dropWhile Char.isDigit with
    | ':' :: tl => dotStarDollar tl
    | _ => false

/-- `issue_row_pattern = re.compile(r'^\s*\* Row \d+:.*$')` applied with
`re.match`. -/
def isIssueRowLine (s : String) : Bool :=
  match stripLit ("* Row ".toList) (s.toList.dropWhile isPySpace) with
  | some rest => rowTail rest
  | none => false

/-- The line the loop works on at index `i`: `lines[i].rstrip()`
(out-of-range defaults to the empty string, which matches neither
pattern; the loop never actually reads out of range). -/
def lineAt (lines : List String) (i : Nat) : String :=
  rstrip (lines.getD i "")

/-- Classification of the line at index `i`, header pattern checked
first, exactly as the two `if` tests in the loop body. -/
inductive Classification where
  | Header : Classification
  | IssueRow : Classification
  | Plain : Classification
deriving DecidableEq

/-- Classify the line at index `i` the way the loop body does. -/
def classifyAt (lines : List String) (i : Nat) : Classification :=
  if isHeaderLine (lineAt lines i) then .Header
  else if isIssueRowLine (lineAt lines i) then .IssueRow
  else .Plain

/-- `colorama.Fore.CYAN`. -/
def FORE_CYAN : String := "\x1b[36m"

/-- `colorama.Fore.RED`. -/
def FORE_RED : String := "\x1b[31m"

/-- `colorama.Style.RESET_ALL`. -/
def STYLE_RESET_ALL : String := "\x1b[0m"

/-- `"-" * 80`, the separator appended after each issue-row block. -/
def SEPARATOR : String := String.mk (List.replicate 80 '-')

/-- `range(max(0, i - context_lines), i)`: indices of the leading
context window (empty when `context_lines` makes the bound reach `i`). -/
def leadingIdxs (ctx : Int) (i : Nat) : List Nat :=
  List.range' ((max 0 ((i : Int) - ctx)).toNat)
    (i - (max 0 ((i : Int) - ctx)).toNat)

/-- `range(i + 1, min(len(lines), i + context_lines + 1))`: indices of
the trailing context window. -/
def trailingIdxs (ctx : Int) (i n : Nat) : List Nat :=
  List.range' (i + 1) ((min (n : Int) ((i : Int) + ctx + 1)).toNat - (i + 1))

/-- The strings one iteration of the loop appends to `result` for index
`i`: the cyan-wrapped line for a header, the full issue block (leading
context, red-wrapped line, trailing context, separator) for an issue
row, and nothing for a plain line. -/
def processIdx (lines : List String) (ctx : Int) (i : Nat) : List String :=
  if isHeaderLine (lineAt lines i) then
    [FORE_CYAN ++ lineAt lines i ++ STYLE_RESET_ALL]
  else if isIssueRowLine (lineAt lines i) then
    (leadingIdxs ctx i).map (lineAt lines)
      ++ [FORE_RED ++ lineAt lines i ++ STYLE_RESET_ALL]
      ++ (trailingIdxs ctx i lines.length).map (lineAt lines)
      ++ [SEPARATOR]
  else []

/-- State of the `while i < len(lines)` loop: the index and the
accumulated `result` list. -/
structure LoopState where
  idx : Nat
  result : List String
deriving DecidableEq

/-- One iteration of the `while` loop: when the guard holds, append this
index's output and increment `i`; otherwise leave the state unchanged. -/
def loopStep (lines : List String) (ctx : Int) (s : LoopState) : LoopState :=
  if s.idx < lines.length then
    LoopState.mk (s.idx + 1) (s.result ++ processIdx lines ctx s.idx)
  else s

/-- The loop state after `k` iterations from `i = 0`, `result = []`. -/
def loopRun (lines : List String) (ctx : Int) (k : Nat) : LoopState :=
  (loopStep lines ctx)^[k] (LoopState.mk 0 [])

/-- The `result` list of `extract_and_highlight_issues` after the loop
has run to completion (one iteration per line). -/
def extract (lines : List String) (ctx : Int) : List String :=
  (loopRun lines ctx lines.length).result

/-- Output item instrumented with its provenance: the source index it
was emitted from (for the separator, none) and its kind. -/
inductive Item where
  | header : Nat → String → Item
  | issue : Nat → String → Item
  | ctxLine : Nat → String → Item
  | sep : Item
deriving DecidableEq

/-- Forget the provenance: the actual string the program appends. -/
def render : Item → String
  | .header _ t => FORE_CYAN ++ t ++ STYLE_RESET_ALL
  | .issue _ t => FORE_RED ++ t ++ STYLE_RESET_ALL
  | .ctxLine _ t => t
  | .sep => SEPARATOR

/-- Instrumented version of `processIdx`. -/
def annotIdx (lines : List String) (ctx : Int) (i : Nat) : List Item :=
  if isHeaderLine (lineAt lines i) then
    [Item.header i (lineAt lines i)]
  else if isIssueRowLine (lineAt lines i) then
    (leadingIdxs ctx i).map (fun j => Item.ctxLine j (lineAt lines j))
      ++ [Item.issue i (lineAt lines i)]
      ++ (trailingIdxs ctx i lines.length).map (fun j => Item.ctxLine j (lineAt lines j))
      ++ [Item.sep]
  else []

/-- Instrumented output of the whole loop. -/
def annotate (lines : List String) (ctx : Int) : List Item :=
  ((List.range lines.length).map (annotIdx lines ctx)).flatten

/-- Source index an output item was copied from (`none` for the
separator, which corresponds to no input line). -/
def srcIdx? : Item → Option Nat
  | .header i _ => some i
  | .issue i _ => some i
  | .ctxLine i _ => some i
  | .sep => none

/-- Keep only the decorated (header / issue-row) output items. -/
def decItem? : Item → Option Item
  | .header i t => some (Item.header i t)
  | .issue i t => some (Item.issue i t)
  | .ctxLine _ _ => none
  | .sep => none

/-- The one decorated item index `i` contributes, when its line is
classified Header or IssueRow. -/
def decoratedAt (lines : List String) (i : Nat) : Option Item :=
  if isHeaderLine (lineAt lines i) then some (Item.header i (lineAt lines i))
  else if isIssueRowLine (lineAt lines i) then some (Item.issue i (lineAt lines i))
  else none

/-- Result of trying to read the file: the three paths of the
`try/except` in `extract_and_highlight_issues`. -/
inductive ReadResult where
  | ok : List String → ReadResult
  | notFound : ReadResult
  | err : String → ReadResult
deriving DecidableEq

/-- What `extract_and_highlight_issues(file_path, ctx)` prints: on
`FileNotFoundError` or any other exception it prints one error message
and returns (extraction is never reached); otherwise it prints the
extracted lines. -/
def runHighlighter (path : String) (r : ReadResult) (ctx : Int) : List String :=
  match r with
  | .ok ls => extract ls ctx
  | .notFound => ["Error: File \x27" ++ path ++ "\x27 not found."]
  | .err m => ["Error reading file: " ++ m]

/-- Value of a digit list, as folded up by Python `int`. -/
def natOfDigits (ds : List Char) : Nat :=
  ds.foldl (fun a c => a * 10 + (c.toNat - 48)) 0

/-- Sign handling of Python `int(str)` after stripping whitespace. -/
def pyIntCore : List Char → Option Int
  | '-' :: ds =>
    if !ds.isEmpty && ds.all Char.isDigit then some (-(natOfDigits ds : Int)) else none
  | '+' :: ds =>
    if !ds.isEmpty && ds.all Char.isDigit then some ((natOfDigits ds : Int)) else none
  | ds =>
    if !ds.isEmpty && ds.all Char.isDigit then some ((natOfDigits ds : Int)) else none

/-- Python `int(s)`: strip surrounding whitespace, optional sign, then a
nonempty digit run; anything else raises `ValueError` (`none` here).
(Digit-group underscores and non-ASCII digits are not modelled; no
concrete input here uses them.) -/
def pyInt? (s : String) : Option Int :=
  pyIntCore (((s.toList.dropWhile isPySpace).reverse.dropWhile isPySpace).reverse)

/-- Outcome of the `__main__` block.  `usageError`: fewer than two argv
entries, usage line printed, `sys.exit(1)`.  `uncaughtValueError`:
`int(sys.argv[2])` raised, the interpreter aborts with a traceback (no
usage guidance) and a non-zero status.  `ran out`: the highlighter
function ran and printed `out`; the script then falls off the end, so
the process exits 0.  (The colorama import guard is an environment
check, not modelled.) -/
inductive MainOutcome where
  | usageError : MainOutcome
  | uncaughtValueError : MainOutcome
  | ran : List String → MainOutcome
deriving DecidableEq

/-- Process exit status for each outcome. -/
def exitCode : MainOutcome → Nat
  | .usageError => 1
  | .uncaughtValueError => 1
  | .ran _ => 0

/-- The `__main__` block: check `len(sys.argv) < 2`, evaluate
`int(sys.argv[2]) if len(sys.argv) > 2 else 2`, then call the
highlighter on the read result of the file named by `sys.argv[1]`. -/
def mainRun (argv : List String) (r : ReadResult) : MainOutcome :=
  if argv.length < 2 then .usageError
  else
    match (if 2 < argv.length then pyInt? (argv.getD 2 "") else some 2) with
    | none => .uncaughtValueError
    | some c => .ran (runHighlighter (argv.getD 1 "") r c)

/-! ### Bridging lemmas -/

theorem processIdx_eq_render (lines : List String) (ctx : Int) (i : Nat) :
    processIdx lines ctx i = (annotIdx lines ctx i).map render := by
  unfold processIdx annotIdx
  by_cases h1 : isHeaderLine (lineAt lines i)
  · simp [h1, render]
  · by_cases h2 : isIssueRowLine (lineAt lines i)
    · simp [h1, h2, render, List.map_map, Function.comp_def]
    · simp [h1, h2]

theorem loopRun_spec (lines : List String) (ctx : Int) :
    ∀ k, k ≤ lines.length →
      loopRun lines ctx k =
        LoopState.mk k (((List.range k).map (processIdx lines ctx)).flatten) := by
  intro k
  induction k with
  | zero => intro _; rfl
  | succ k ih =>
    intro hk
    have hk' : k ≤ lines.length := Nat.le_of_succ_le hk
    have hlt : k < lines.length := hk
    unfold loopRun
    rw [Function.iterate_succ_apply']
    have := ih hk'
    unfold loopRun at this
    rw [this]
    simp [loopStep, hlt, List.range_succ]

theorem extract_eq_flatten (lines : List String) (ctx : Int) :
    extract lines ctx =
      ((List.range lines.length).map (processIdx lines ctx)).flatten := by
  unfold extract
  rw [loopRun_spec lines ctx lines.length (le_refl _)]

theorem extract_eq_render (lines : List String) (ctx : Int) :
    extract lines ctx = (annotate lines ctx).map render := by
  rw [extract_eq_flatten]
  unfold annotate
  rw [List.map_flatten, List.map_map]
  congr 1
  apply List.map_congr_left
  intro i _
  exact processIdx_eq_render lines ctx i

theorem leadingIdxs_nonpos (ctx : Int) (i : Nat) (h : ctx ≤ 0) :
    leadingIdxs ctx i = [] := by
  unfold leadingIdxs
  have : i - (max 0 ((i : Int) - ctx)).toNat = 0 := by omega
  rw [this, List.range'_zero]

theorem leadingIdxs_zero (i : Nat) : leadingIdxs 0 i = [] :=
  leadingIdxs_nonpos 0 i (le_refl 0)

theorem trailingIdxs_nonpos (ctx : Int) (i n : Nat) (h : ctx ≤ 0) :
    trailingIdxs ctx i n = [] := by
  unfold trailingIdxs
  have : (min (n : Int) ((i : Int) + ctx + 1)).toNat - (i + 1) = 0 := by omega
  rw [this, List.range'_zero]

theorem annotIdx_nonpos (lines : List String) (ctx : Int) (i : Nat) (h : ctx ≤ 0) :
    annotIdx lines ctx i = annotIdx lines 0 i := by
  unfold annotIdx
  rw [leadingIdxs_nonpos ctx i h, leadingIdxs_nonpos 0 i (le_refl 0),
    trailingIdxs_nonpos ctx i lines.length h,
    trailingIdxs_nonpos 0 i lines.length (le_refl 0)]

theorem annotate_nonpos (lines : List String) (ctx : Int) (h : ctx ≤ 0) :
    annotate lines ctx = annotate lines 0 := by
  unfold annotate
  congr 1
  apply List.map_congr_left
  intro i _
  exact annotIdx_nonpos lines ctx i h

theorem extract_nonpos (lines : List String) (ctx : Int) (h : ctx ≤ 0) :
    extract lines ctx = extract lines 0 := by
  rw [extract_eq_render, extract_eq_render, annotate_nonpos lines ctx h]

theorem classifyAt_issue (lines : List String) (i : Nat)
    (hc : classifyAt lines i = Classification.IssueRow) :
    isHeaderLine (lineAt lines i) = false
      ∧ isIssueRowLine (lineAt lines i) = true := by
  revert hc
  unfold classifyAt
  by_cases h : isHeaderLine (lineAt lines i) <;>
    by_cases h' : isIssueRowLine (lineAt lines i) <;> simp [h, h']

theorem leadingIdxs_lt (ctx : Int) (i : Nat) :
    ∀ j ∈ leadingIdxs ctx i, j < i := by
  intro j hj
  unfold leadingIdxs at hj
  have := List.mem_range'_1.mp hj
  omega

theorem trailingIdxs_gt (ctx : Int) (i n : Nat) :
    ∀ j ∈ trailingIdxs ctx i n, i < j := by
  intro j hj
  unfold trailingIdxs at hj
  have := List.mem_range'_1.mp hj
  omega

theorem leadingIdxs_ofNat (c i : Nat) :
    leadingIdxs (c : Int) i = List.range' (i - c) (i - (i - c)) := by
  unfold leadingIdxs
  have h : (max 0 ((i : Int) - (c : Int))).toNat = i - c := by omega
  rw [h]

theorem trailingIdxs_ofNat (c i n : Nat) :
    trailingIdxs (c : Int) i n =
      List.range' (i + 1) (min n (i + c + 1) - (i + 1)) := by
  unfold trailingIdxs
  have h : (min (n : Int) ((i : Int) + (c : Int) + 1)).toNat = min n (i + c + 1) := by
    omega
  rw [h]

theorem filterMap_const_none {α β : Type} (l : List α) :
    l.filterMap (fun _ => (none : Option β)) = [] := by
  simp

theorem annotIdx_filterMap_dec (lines : List String) (ctx : Int) (i : Nat) :
    (annotIdx lines ctx i).filterMap decItem? = (decoratedAt lines i).toList := by
  unfold annotIdx decoratedAt
  by_cases h1 : isHeaderLine (lineAt lines i)
  · simp [h1, decItem?]
  · by_cases h2 : isIssueRowLine (lineAt lines i)
    · simp [h1, h2, decItem?, List.filterMap_append, List.filterMap_map,
        Function.comp_def, filterMap_const_none]
    · simp [h1, h2]

theorem flatten_filterMap_dec (lines : List String) (ctx : Int) (l : List Nat) :
    ((l.map (annotIdx lines ctx)).flatten).filterMap decItem? =
      l.filterMap (decoratedAt lines) := by
  induction l with
  | nil => rfl
  | cons a l ih =>
    simp only [List.map_cons, List.flatten_cons, List.filterMap_append, ih,
      annotIdx_filterMap_dec, List.filterMap_cons]
    cases decoratedAt lines a <;> simp

theorem annotIdx_filterMap_src (lines : List String) (ctx : Int) (i : Nat) :
    (annotIdx lines ctx i).filterMap srcIdx? =
      if isHeaderLine (lineAt lines i) then [i]
      else if isIssueRowLine (lineAt lines i) then
        leadingIdxs ctx i ++ i :: trailingIdxs ctx i lines.length
      else [] := by
  unfold annotIdx
  by_cases h1 : isHeaderLine (lineAt lines i)
  · simp [h1, srcIdx?]
  · by_cases h2 : isIssueRowLine (lineAt lines i)
    · simp [h1, h2, srcIdx?, List.filterMap_append, List.filterMap_map,
        Function.comp_def]
    · simp [h1, h2]

/-! ### Claims -/

/-- Claim C1, counterexample: on
`["a", "* **[ISSUE]** X", "* Row 1: data", "b", "c"]` with context size 1
the output is not the claimed four lines (decorated header, decorated
issue row with no leading context, "b", separator): the loop's leading
context window takes the raw preceding line regardless of its
classification, so the header line is reprinted as plain context. -/
theorem C1_cex :
    extract ["a", "* **[ISSUE]** X", "* Row 1: data", "b", "c"] 1 ≠
      [FORE_CYAN ++ "* **[ISSUE]** X" ++ STYLE_RESET_ALL,
       FORE_RED ++ "* Row 1: data" ++ STYLE_RESET_ALL,
       "b", SEPARATOR] := by
  decide

/-- Claim C1, amended: on
`["a", "* **[ISSUE]** X", "* Row 1: data", "b", "c"]` with context size 1
the output is, in order: the decorated header line, the header line
reprinted once as plain leading context (the window looks at raw
preceding lines regardless of classification), the decorated issue-row
line, the plain line "b", and the 80-dash separator. -/
theorem C1_amended :
    extract ["a", "* **[ISSUE]** X", "* Row 1: data", "b", "c"] 1 =
      [FORE_CYAN ++ "* **[ISSUE]** X" ++ STYLE_RESET_ALL,
       "* **[ISSUE]** X",
       FORE_RED ++ "* Row 1: data" ++ STYLE_RESET_ALL,
       "b", SEPARATOR] := by
  decide

/-- Claim C2, counterexample: when the file does not exist the program
prints the error message and never runs extraction, but the function
returns normally and the script falls off the end, so the process exit
status is 0 — not non-zero as claimed. -/
theorem C2_cex :
    mainRun ["python", "missing.log"] ReadResult.notFound =
        MainOutcome.ran ["Error: File \x27missing.log\x27 not found."]
      ∧ exitCode (mainRun ["python", "missing.log"] ReadResult.notFound) = 0 := by
  decide

/-- Claim C2, amended: if the file cannot be opened or read, the program
reports the error to the user and extraction never runs on any content
(the whole output is the single error message), but the process exits
with status zero. -/
theorem C2_amended (prog p m : String) (ctx : Int) :
    runHighlighter p ReadResult.notFound ctx =
        ["Error: File \x27" ++ p ++ "\x27 not found."]
    ∧ runHighlighter p (ReadResult.err m) ctx = ["Error reading file: " ++ m]
    ∧ mainRun [prog, p] ReadResult.notFound =
        MainOutcome.ran ["Error: File \x27" ++ p ++ "\x27 not found."]
    ∧ exitCode (mainRun [prog, p] ReadResult.notFound) = 0 := by
  refine ⟨rfl, rfl, ?_, ?_⟩ <;> simp [mainRun, runHighlighter, exitCode]

/-- Witness for C2, amended, at a concrete path. -/
theorem C2_witness :
    runHighlighter "f.log" ReadResult.notFound 2 =
        ["Error: File \x27f.log\x27 not found."]
    ∧ runHighlighter "f.log" (ReadResult.err "boom") 2 =
        ["Error reading file: boom"]
    ∧ mainRun ["python", "f.log"] ReadResult.notFound =
        MainOutcome.ran ["Error: File \x27f.log\x27 not found."]
    ∧ exitCode (mainRun ["python", "f.log"] ReadResult.notFound) = 0 :=
  C2_amended "python" "f.log" "boom" 2

/-- Claim C6, counterexample: a negative context-size argument is not
rejected: `int("-1")` succeeds, extraction runs (here producing the
decorated issue row and separator) and the process exits 0. -/
theorem C6_cex :
    pyInt? "-1" = some (-1)
    ∧ mainRun ["python", "log.txt", "-1"] (ReadResult.ok ["* Row 1: x"]) =
        MainOutcome.ran [FORE_RED ++ "* Row 1: x" ++ STYLE_RESET_ALL, SEPARATOR]
    ∧ exitCode (mainRun ["python", "log.txt", "-1"]
        (ReadResult.ok ["* Row 1: x"])) = 0 := by
  decide

/-- Claim C6, amended: a non-integer context-size argument aborts the
process with a non-zero status before extraction runs, though via an
uncaught `ValueError` traceback rather than usage guidance; a negative
integer context-size is accepted, extraction runs (behaving as context
size 0) and the process exits zero. -/
theorem C6_amended (prog p s : String) (ls : List String) (c : Int) :
    (pyInt? s = none →
        mainRun [prog, p, s] (ReadResult.ok ls) = MainOutcome.uncaughtValueError
        ∧ exitCode (mainRun [prog, p, s] (ReadResult.ok ls)) = 1)
    ∧ (pyInt? s = some c → c < 0 →
        mainRun [prog, p, s] (ReadResult.ok ls) = MainOutcome.ran (extract ls 0)
        ∧ exitCode (mainRun [prog, p, s] (ReadResult.ok ls)) = 0) := by
  constructor
  · intro h
    simp [mainRun, h, exitCode]
  · intro h hneg
    have he : extract ls c = extract ls 0 := extract_nonpos ls c (le_of_lt hneg)
    simp [mainRun, h, runHighlighter, exitCode, he]

/-- Witness for C6, amended, at the concrete arguments "abc" and "-1". -/
theorem C6_witness :
    mainRun ["python", "f.log", "abc"] (ReadResult.ok ["x"]) =
        MainOutcome.uncaughtValueError
    ∧ mainRun ["python", "f.log", "-1"] (ReadResult.ok ["x"]) =
        MainOutcome.ran (extract ["x"] 0)
    ∧ exitCode (mainRun ["python", "f.log", "-1"] (ReadResult.ok ["x"])) = 0 :=
  ⟨((C6_amended "python" "f.log" "abc" ["x"] 0).1 (by decide)).1,
   ((C6_amended "python" "f.log" "-1" ["x"] (-1)).2 (by decide) (by decide)).1,
   ((C6_amended "python" "f.log" "-1" ["x"] (-1)).2 (by decide) (by decide)).2⟩

/-- Claim C9: calling extraction with a negative context size is total,
reports nothing, and produces exactly the same output as context size 0:
windows are empty while decorated lines and separators are still
emitted. -/
theorem C9_negative_ctx (lines : List String) (ctx : Int) (h : ctx < 0) :
    annotate lines ctx = annotate lines 0
    ∧ extract lines ctx = extract lines 0 :=
  ⟨annotate_nonpos lines ctx (le_of_lt h), extract_nonpos lines ctx (le_of_lt h)⟩

/-- Witness for C9 at context size -3. -/
theorem C9_witness :
    annotate ["a", "* Row 1: x", "b"] (-3) = annotate ["a", "* Row 1: x", "b"] 0
    ∧ extract ["a", "* Row 1: x", "b"] (-3) = extract ["a", "* Row 1: x", "b"] 0 :=
  C9_negative_ctx ["a", "* Row 1: x", "b"] (-3) (by decide)

/-- Claim C10: the loop terminates on every finite input: each iteration
with the guard true increments the index by exactly one (on every
branch), after `k ≤ n` iterations the index is exactly `k`, and after
`n` iterations the loop state is a fixed point of the step function. -/
theorem C10_termination (lines : List String) (ctx : Int) :
    (∀ s : LoopState, s.idx < lines.length →
        (loopStep lines ctx s).idx = s.idx + 1)
    ∧ (∀ k, k ≤ lines.length → (loopRun lines ctx k).idx = k)
    ∧ loopStep lines ctx (loopRun lines ctx lines.length) =
        loopRun lines ctx lines.length := by
  refine ⟨?_, ?_, ?_⟩
  · intro s hs
    simp [loopStep, hs]
  · intro k hk
    rw [loopRun_spec lines ctx k hk]
  · rw [loopRun_spec lines ctx lines.length (le_refl _)]
    simp [loopStep]

/-- Witness for C10 on a one-line input. -/
theorem C10_witness :
    (loopStep ["a"] 2 (LoopState.mk 0 [])).idx = 0 + 1
    ∧ (loopRun ["a"] 2 1).idx = 1 :=
  ⟨(C10_termination ["a"] 2).1 (LoopState.mk 0 []) (by decide),
   (C10_termination ["a"] 2).2.1 1 (by decide)⟩

/-- Claim C3: for every input, the decorated output items are exactly
one item per Header/IssueRow-classified input line, in input order,
carrying that line's trimmed text; rendering maps the instrumented
output to the string output, wrapping headers in decoration A (cyan) and
issue rows in decoration B (red). -/
theorem C3_decorated_once (lines : List String) (ctx : Int) :
    (annotate lines ctx).filterMap decItem? =
      (List.range lines.length).filterMap (decoratedAt lines)
    ∧ extract lines ctx = (annotate lines ctx).map render :=
  ⟨flatten_filterMap_dec lines ctx (List.range lines.length),
   extract_eq_render lines ctx⟩

/-- Witness for C3 on a concrete input with one header and one issue
row. -/
theorem C3_witness :
    (annotate ["a", "* **[ISSUE]** X", "* Row 1: d", "b"] 1).filterMap decItem? =
      (List.range (["a", "* **[ISSUE]** X", "* Row 1: d", "b"] :
        List String).length).filterMap
        (decoratedAt ["a", "* **[ISSUE]** X", "* Row 1: d", "b"])
    ∧ extract ["a", "* **[ISSUE]** X", "* Row 1: d", "b"] 1 =
      (annotate ["a", "* **[ISSUE]** X", "* Row 1: d", "b"] 1).map render :=
  C3_decorated_once ["a", "* **[ISSUE]** X", "* Row 1: d", "b"] 1

/-- Claim C4, counterexample: on
`["* Row 1: x", "* **[ISSUE]** h", "z"]` with context size 2 the source
indices of the output are `[0, 1, 2, 1]`: the header line (index 1) is
re-emitted as trailing context before the scan reaches it, so line 1
appears in the output after line 2 — the output is a reordering, not a
subsequence-with-insertions of the input. -/
theorem C4_cex :
    ¬ List.Pairwise (· ≤ ·)
        ((annotate ["* Row 1: x", "* **[ISSUE]** h", "z"] 2).filterMap srcIdx?) := by
  decide

/-- Claim C4, amended: the output is the concatenation, in scan order,
of one block per input index, and within each block the source indices
strictly increase (leading context, then the matched line, then trailing
context); across blocks, context windows may re-emit lines already
printed, so the whole output need not preserve input order. -/
theorem C4_amended (lines : List String) (ctx : Int) :
    extract lines ctx =
      ((List.range lines.length).map (processIdx lines ctx)).flatten
    ∧ ∀ i, List.Pairwise (· < ·) ((annotIdx lines ctx i).filterMap srcIdx?) := by
  refine ⟨extract_eq_flatten lines ctx, ?_⟩
  intro i
  rw [annotIdx_filterMap_src]
  by_cases h1 : isHeaderLine (lineAt lines i)
  · simp [h1]
  · by_cases h2 : isIssueRowLine (lineAt lines i)
    · simp only [h1, h2, Bool.false_eq_true, if_false, if_true]
      refine List.pairwise_append.mpr ⟨?_, ?_, ?_⟩
      · unfold leadingIdxs
        exact List.pairwise_lt_range' _ _
      · refine List.pairwise_cons.mpr ⟨trailingIdxs_gt ctx i lines.length, ?_⟩
        unfold trailingIdxs
        exact List.pairwise_lt_range' _ _
      · intro a ha b hb
        have ha' := leadingIdxs_lt ctx i a ha
        rcases List.mem_cons.mp hb with rfl | hb'
        · exact ha'
        · exact lt_trans ha' (trailingIdxs_gt ctx i lines.length b hb')
    · simp [h1, h2]

/-- Witness for C4, amended, at a concrete input. -/
theorem C4_witness :
    extract ["* Row 1: x", "* **[ISSUE]** h", "z"] 2 =
      ((List.range (["* Row 1: x", "* **[ISSUE]** h", "z"] :
        List String).length).map
        (processIdx ["* Row 1: x", "* **[ISSUE]** h", "z"] 2)).flatten
    ∧ ∀ i, List.Pairwise (· < ·)
        ((annotIdx ["* Row 1: x", "* **[ISSUE]** h", "z"] 2 i).filterMap srcIdx?) :=
  C4_amended ["* Row 1: x", "* **[ISSUE]** h", "z"] 2

/-- Claim C5: for every context size `c ≥ 0` (as a natural number), an
IssueRow at index `i` contributes exactly the block: the lines with
indices in `[max(0, i-c), i)` as plain trimmed context, its decorated
line, the lines in `[i+1, min(N, i+c+1))` as plain trimmed context, and
the separator.  In particular `i = 0` gets no leading context and an
issue row on the last line gets no trailing context. -/
theorem C5_window (lines : List String) (c i : Nat)
    (hc : classifyAt lines i = Classification.IssueRow) :
    annotIdx lines (c : Int) i =
      ((List.range' (i - c) (i - (i - c))).map
          (fun j => Item.ctxLine j (lineAt lines j)))
        ++ [Item.issue i (lineAt lines i)]
        ++ ((List.range' (i + 1) (min lines.length (i + c + 1) - (i + 1))).map
            (fun j => Item.ctxLine j (lineAt lines j)))
        ++ [Item.sep] := by
  obtain ⟨h1, h2⟩ := classifyAt_issue lines i hc
  unfold annotIdx
  rw [leadingIdxs_ofNat, trailingIdxs_ofNat]
  simp [h1, h2]

/-- Witness for C5: issue row at index 2 of a four-line input, context
size 1. -/
theorem C5_witness :
    classifyAt ["a", "b", "* Row 2: d", "c"] 2 = Classification.IssueRow
    ∧ annotIdx ["a", "b", "* Row 2: d", "c"] ((1 : Nat) : Int) 2 =
      ((List.range' (2 - 1) (2 - (2 - 1))).map
          (fun j => Item.ctxLine j (lineAt ["a", "b", "* Row 2: d", "c"] j)))
        ++ [Item.issue 2 (lineAt ["a", "b", "* Row 2: d", "c"] 2)]
        ++ ((List.range' (2 + 1)
              (min (["a", "b", "* Row 2: d", "c"] : List String).length
                (2 + 1 + 1) - (2 + 1))).map
            (fun j => Item.ctxLine j (lineAt ["a", "b", "* Row 2: d", "c"] j)))
        ++ [Item.sep] :=
  ⟨by decide, C5_window ["a", "b", "* Row 2: d", "c"] 1 2 (by decide)⟩

/-- Claim C7, counterexample: an input line that itself consists of 80
dashes and falls inside a context window is reprinted verbatim, so the
80-dash separator string also appears at a position that is not a
separator emission (here before the issue row, not after its trailing
context). -/
theorem C7_cex :
    ¬ (∀ p, p < (annotate [SEPARATOR, "* Row 1: x"] 2).length →
        ((annotate [SEPARATOR, "* Row 1: x"] 2).map render).getD p "" = SEPARATOR →
        (annotate [SEPARATOR, "* Row 1: x"] 2).getD p Item.sep = Item.sep) := by
  decide

/-- Claim C7, amended: the separator token is emitted exactly once per
IssueRow, as the last element of its block (immediately after the
trailing context), and no block of a non-IssueRow line contains it; it
renders as the 80-dash string.  However an input line textually equal to
80 dashes that is reprinted as context is indistinguishable from it in
the string output. -/
theorem C7_amended (lines : List String) (ctx : Int) (i : Nat)
    (hc : classifyAt lines i = Classification.IssueRow) :
    (annotIdx lines ctx i).getLast? = some Item.sep
    ∧ (annotIdx lines ctx i).count Item.sep = 1
    ∧ (∀ j, classifyAt lines j ≠ Classification.IssueRow →
        Item.sep ∉ annotIdx lines ctx j)
    ∧ render Item.sep = SEPARATOR := by
  obtain ⟨h1, h2⟩ := classifyAt_issue lines i hc
  have hcount : ∀ l : List Nat,
      ((l.map (fun j => Item.ctxLine j (lineAt lines j))).count Item.sep) = 0 := by
    intro l
    rw [List.count_eq_zero]
    intro hmem
    rcases List.mem_map.mp hmem with ⟨j, _, hj⟩
    exact Item.noConfusion hj
  refine ⟨?_, ?_, ?_, rfl⟩
  · unfold annotIdx
    simp only [h1, h2, Bool.false_eq_true, if_false, if_true]
    exact List.getLast?_concat _
  · unfold annotIdx
    simp only [h1, h2, Bool.false_eq_true, if_false, if_true]
    simp [List.count_append, hcount]
  · intro j hj
    unfold annotIdx
    by_cases g1 : isHeaderLine (lineAt lines j)
    · simp [g1]
    · by_cases g2 : isIssueRowLine (lineAt lines j)
      · exact absurd (by unfold classifyAt; simp [g1, g2]) hj
      · simp [g1, g2]

/-- Witness for C7, amended, at a concrete two-line input. -/
theorem C7_witness :
    (annotIdx ["a", "* Row 1: x"] 2 1).getLast? = some Item.sep
    ∧ (annotIdx ["a", "* Row 1: x"] 2 1).count Item.sep = 1
    ∧ (∀ j, classifyAt ["a", "* Row 1: x"] j ≠ Classification.IssueRow →
        Item.sep ∉ annotIdx ["a", "* Row 1: x"] 2 j)
    ∧ render Item.sep = SEPARATOR :=
  C7_amended ["a", "* Row 1: x"] 2 1 (by decide)

/-- Claim C8: an input line classified Plain that lies in no IssueRow's
context window is never emitted: no output item carries its index. -/
theorem C8_plain_excluded (lines : List String) (ctx : Int) (j : Nat)
    (hp : classifyAt lines j = Classification.Plain)
    (hw : ∀ i, i < lines.length → classifyAt lines i = Classification.IssueRow →
        j ∉ leadingIdxs ctx i ∧ j ∉ trailingIdxs ctx i lines.length) :
    ∀ it ∈ annotate lines ctx, srcIdx? it ≠ some j := by
  intro it hit
  unfold annotate at hit
  rcases List.mem_flatten.mp hit with ⟨bl, hbl, hin⟩
  rcases List.mem_map.mp hbl with ⟨i, hi, rfl⟩
  have hilen : i < lines.length := List.mem_range.mp hi
  unfold annotIdx at hin
  by_cases g1 : isHeaderLine (lineAt lines i)
  · rw [if_pos g1] at hin
    rw [List.mem_singleton.mp hin]
    intro hcon
    have hij : i = j := by simpa [srcIdx?] using hcon
    subst hij
    unfold classifyAt at hp
    rw [if_pos g1] at hp
    exact Classification.noConfusion hp
  · by_cases g2 : isIssueRowLine (lineAt lines i)
    · have hcls : classifyAt lines i = Classification.IssueRow := by
        unfold classifyAt
        simp [g1, g2]
      have hw' := hw i hilen hcls
      rw [if_neg (by simp [g1]), if_pos g2] at hin
      rcases List.mem_append.mp hin with h3 | hsep
      · rcases List.mem_append.mp h3 with h4 | htrail
        · rcases List.mem_append.mp h4 with hlead | hiss
          · rcases List.mem_map.mp hlead with ⟨a, ha, rfl⟩
            intro hcon
            have haj : a = j := by simpa [srcIdx?] using hcon
            subst haj
            exact hw'.1 ha
          · rw [List.mem_singleton.mp hiss]
            intro hcon
            have hij : i = j := by simpa [srcIdx?] using hcon
            subst hij
            rw [hp] at hcls
            exact Classification.noConfusion hcls
        · rcases List.mem_map.mp htrail with ⟨a, ha, rfl⟩
          intro hcon
          have haj : a = j := by simpa [srcIdx?] using hcon
          subst haj
          exact hw'.2 ha
      · rw [List.mem_singleton.mp hsep]
        simp [srcIdx?]
    · rw [if_neg (by simp [g1]), if_neg (by simp [g2])] at hin
      exact absurd hin (List.not_mem_nil it)

/-- Witness for C8: index 0 is plain and outside the single issue row's
windows, and indeed never appears in the output. -/
theorem C8_witness :
    classifyAt ["a", "b", "* Row 1: d"] 0 = Classification.Plain
    ∧ ∀ it ∈ annotate ["a", "b", "* Row 1: d"] 1, srcIdx? it ≠ some 0 :=
  ⟨by decide,
   C8_plain_excluded ["a", "b", "* Row 1: d"] 1 0 (by decide) (by decide)⟩

end LogHighlighter
